import Mathlib

/-!
# Verification of the UniFi Ansible dynamic-inventory script

Shallow embedding of `src/unifi_inventory.py`. Python values appearing in
hostvars entries are modelled by `PyVal`; JSON records coming back from the
controller API are modelled by structures whose fields are `Option`-typed,
with `none` standing for an absent key (Python `dict.get` returning `None`).
Python dictionaries built by the script are modelled as association lists
with insert-replaces semantics (`dictInsert`), matching CPython dict
assignment. Python truthiness of the `or` fallback on strings is modelled
by `pyTruthy` (`None` and the empty string are falsy).
-/

/-- A Python value as it can occur inside a hostvars entry. -/
inductive PyVal where
  | none
  | bool (b : Bool)
  | int (n : Int)
  | str (s : String)
deriving DecidableEq, Repr

/-- `device.get(k)` for a string field: absent key gives Python `None`. -/
def optStr : Option String → PyVal
  | Option.none => PyVal.none
  | Option.some s => PyVal.str s

/-- `record.get(k)` for an integer field: absent key gives Python `None`. -/
def optInt : Option Int → PyVal
  | Option.none => PyVal.none
  | Option.some n => PyVal.int n

/-- A device record returned by `/api/s/<site>/stat/device` (the fields the
script reads; `none` = key absent). -/
structure DeviceRecord where
  name : Option String
  mac : Option String
  type : Option String
  ip : Option String
  model : Option String
  version : Option String
  state : Option Int
deriving DecidableEq, Repr

/-- A client record returned by `/api/s/<site>/stat/sta` (the fields the
script reads; `none` = key absent). -/
structure ClientRecord where
  hostname : Option String
  mac : Option String
  is_wired : Option Bool
  ip : Option String
  last_seen : Option Int
deriving DecidableEq, Repr

/-- Python truthiness of an optional string: `None` and `""` are falsy. -/
def pyTruthy : Option String → Bool
  | Option.none => false
  | Option.some s => !s.isEmpty

/-- Python `a or b` on two optional strings. -/
def pyOr (a b : Option String) : Option String :=
  if pyTruthy a then a else b

/-- `device.get('name') or device.get('mac')` (line 100). -/
def deviceHostId (d : DeviceRecord) : Option String :=
  pyOr d.name d.mac

/-- `client.get('hostname') or client.get('mac')` (line 124). -/
def clientHostId (c : ClientRecord) : Option String :=
  pyOr c.hostname c.mac

/-- `device.get('type', 'unknown')` (line 101). -/
def deviceType (d : DeviceRecord) : String :=
  d.type.getD "unknown"

/-- A hostvars entry: the Python dict literal written for one host. -/
abbrev HostEntry := List (String × PyVal)

/-- The hostvars mapping. Keys are the derived host identifiers, which can
be Python `None` when both identifier fields are absent. -/
abbrev HostVars := List (Option String × HostEntry)

/-- Python dict assignment `d[k] = v`: replace the value at an existing key
in place, otherwise append a new entry. -/
def dictInsert (k : Option String) (v : HostEntry) (d : HostVars) : HostVars :=
  if d.any (fun p => p.1 == k) then
    d.map (fun p => if p.1 == k then (k, v) else p)
  else
    d ++ [(k, v)]

/-- Python dict lookup `d[k]` (as a partial operation): value at the first
entry whose key equals `k`. -/
def dictGet (d : HostVars) (k : Option String) : Option HostEntry :=
  (d.find? (fun p => p.1 == k)).map Prod.snd

/-- The inventory document built at lines 78-96: a dict with nine fixed
top-level keys, each field of this structure holding the mutable content of
one of them. -/
structure Inventory where
  hostvars : HostVars
  all_children : List String
  unifi_devices_children : List String
  switches_hosts : List (Option String)
  aps_hosts : List (Option String)
  gateways_hosts : List (Option String)
  unifi_clients_children : List String
  wired_clients_hosts : List (Option String)
  wireless_clients_hosts : List (Option String)
deriving DecidableEq, Repr

/-- The skeleton dict literal of lines 78-96. -/
def skeleton : Inventory where
  hostvars := []
  all_children := ["unifi_devices", "unifi_clients"]
  unifi_devices_children := ["switches", "aps", "gateways"]
  switches_hosts := []
  aps_hosts := []
  gateways_hosts := []
  unifi_clients_children := ["wired_clients", "wireless_clients"]
  wired_clients_hosts := []
  wireless_clients_hosts := []

/-- The value stored under one top-level key of the inventory document. -/
inductive GroupVal where
  | meta (hv : HostVars)
  | children (groups : List String)
  | hosts (hs : List (Option String))
deriving DecidableEq, Repr

/-- The inventory document as the key/value association the Python dict
holds, in insertion order of lines 78-96. -/
def Inventory.toAssoc (inv : Inventory) : List (String × GroupVal) :=
  [("_meta", GroupVal.meta inv.hostvars),
   ("all", GroupVal.children inv.all_children),
   ("unifi_devices", GroupVal.children inv.unifi_devices_children),
   ("switches", GroupVal.hosts inv.switches_hosts),
   ("aps", GroupVal.hosts inv.aps_hosts),
   ("gateways", GroupVal.hosts inv.gateways_hosts),
   ("unifi_clients", GroupVal.children inv.unifi_clients_children),
   ("wired_clients", GroupVal.hosts inv.wired_clients_hosts),
   ("wireless_clients", GroupVal.hosts inv.wireless_clients_hosts)]

/-- The keys of the hostvars mapping. -/
def hostvarsKeys (inv : Inventory) : List (Option String) :=
  inv.hostvars.map Prod.fst

/-- The device hostvars entry written at lines 104-112. -/
def deviceEntry (d : DeviceRecord) : HostEntry :=
  [("mac_address", optStr d.mac),
   ("ip_address", optStr d.ip),
   ("model", optStr d.model),
   ("version", optStr d.version),
   ("device_type", PyVal.str (deviceType d)),
   ("adoption_state", PyVal.int (d.state.getD 1)),
   ("unifi_device", PyVal.bool true)]

/-- The client hostvars entry written at lines 128-135. -/
def clientEntry (c : ClientRecord) : HostEntry :=
  [("mac_address", optStr c.mac),
   ("ip_address", optStr c.ip),
   ("hostname", optStr c.hostname),
   ("is_wired", PyVal.bool (c.is_wired.getD false)),
   ("last_seen", optInt c.last_seen),
   ("unifi_client", PyVal.bool true)]

/-- One iteration of the device loop, lines 99-120. -/
def processDevice (inv : Inventory) (device : DeviceRecord) : Inventory :=
  let hostname := pyOr device.name device.mac
  let device_type := deviceType device
  let inv2 := { inv with hostvars := dictInsert hostname (deviceEntry device) inv.hostvars }
  if device_type = "usw" then
    { inv2 with switches_hosts := inv2.switches_hosts ++ [hostname] }
  else if device_type = "uap" then
    { inv2 with aps_hosts := inv2.aps_hosts ++ [hostname] }
  else if device_type = "ugw" then
    { inv2 with gateways_hosts := inv2.gateways_hosts ++ [hostname] }
  else
    inv2

/-- One iteration of the client loop, lines 123-141. -/
def processClient (inv : Inventory) (client : ClientRecord) : Inventory :=
  let hostname := pyOr client.hostname client.mac
  let is_wired := client.is_wired.getD false
  let inv2 := { inv with hostvars := dictInsert hostname (clientEntry client) inv.hostvars }
  if is_wired then
    { inv2 with wired_clients_hosts := inv2.wired_clients_hosts ++ [hostname] }
  else
    { inv2 with wireless_clients_hosts := inv2.wireless_clients_hosts ++ [hostname] }

/-- `build_inventory` (lines 76-143), abstracted over the two fetched
record lists: skeleton, then the device loop, then the client loop. -/
def buildInventory (devices : List DeviceRecord) (clients : List ClientRecord) : Inventory :=
  clients.foldl processClient (devices.foldl processDevice skeleton)

/-- Outcome of one HTTP GET as the script observes it: an exception while
requesting or parsing, or a response with a status code and an optional
parsed `data` array (`none` when the JSON body has no `data` key). -/
inductive HttpResult (α : Type) where
  | exn
  | resp (status : Nat) (data : Option α)
deriving DecidableEq

/-- `get_devices` (lines 52-62), abstracted over the HTTP outcome: the
`data` array on a 200 response, the empty list otherwise. -/
def get_devices : HttpResult (List DeviceRecord) → List DeviceRecord
  | HttpResult.exn => []
  | HttpResult.resp status data => if status = 200 then data.getD [] else []

/-- `get_clients` (lines 64-74), abstracted over the HTTP outcome. -/
def get_clients : HttpResult (List ClientRecord) → List ClientRecord
  | HttpResult.exn => []
  | HttpResult.resp status data => if status = 200 then data.getD [] else []

/-- Outcome of the login POST: an exception (during base64 decoding or the
request itself) or a response with a status code. -/
inductive AuthAttempt where
  | exn
  | resp (status : Nat)
deriving DecidableEq

/-- `authenticate` (lines 37-50): `True` exactly on a 200 response; any
exception is caught, logged to stderr, and yields `False`. -/
def authenticate : AuthAttempt → Bool
  | AuthAttempt.exn => false
  | AuthAttempt.resp status => status == 200

/-- `run` (lines 145-151), abstracted over the three HTTP outcomes.
`Except.error msg` models `sys.exit(msg)`: a non-zero exit with `msg` as
diagnostic and nothing printed to standard output. `Except.ok inv` models
printing the JSON rendering of `inv` and exiting normally. -/
def run (a : AuthAttempt) (dr : HttpResult (List DeviceRecord))
    (cr : HttpResult (List ClientRecord)) : Except String Inventory :=
  if authenticate a then
    Except.ok (buildInventory (get_devices dr) (get_clients cr))
  else
    Except.error "Authentication failed"

/-- Occurrences of a host identifier in a hosts list. -/
def countHost (h : Option String) (l : List (Option String)) : Nat :=
  l.countP (fun x => x == h)

/-- Every identifier in any hosts list is a hostvars key. -/
def hostsOk (inv : Inventory) : Prop :=
  ∀ h : Option String,
    (h ∈ inv.switches_hosts ∨ h ∈ inv.aps_hosts ∨ h ∈ inv.gateways_hosts ∨
      h ∈ inv.wired_clients_hosts ∨ h ∈ inv.wireless_clients_hosts) →
    h ∈ hostvarsKeys inv

/-- The hostvars entry has the exact key set of the device dict literal of
lines 104-112, with the `unifi_device` marker set. -/
def isDeviceVars (v : HostEntry) : Prop :=
  v.map Prod.fst = ["mac_address", "ip_address", "model", "version",
    "device_type", "adoption_state", "unifi_device"] ∧
  ("unifi_device", PyVal.bool true) ∈ v

/-- The hostvars entry has the exact key set of the client dict literal of
lines 128-135, with the `unifi_client` marker set. -/
def isClientVars (v : HostEntry) : Prop :=
  v.map Prod.fst = ["mac_address", "ip_address", "hostname", "is_wired",
    "last_seen", "unifi_client"] ∧
  ("unifi_client", PyVal.bool true) ∈ v

/-- `k in v` on a hostvars entry. -/
def hasKey (k : String) (v : HostEntry) : Bool :=
  v.any (fun p => p.1 == k)

/-- Every hostvars value is a device entry or a client entry, never a mix. -/
def entriesOk (inv : Inventory) : Prop :=
  ∀ k v, (k, v) ∈ inv.hostvars →
    (isDeviceVars v ∧ hasKey "unifi_client" v = false) ∨
    (isClientVars v ∧ hasKey "unifi_device" v = false)

/-- The switch device of the spec's worked example. -/
def devUsw : DeviceRecord :=
  { name := some "sw1", mac := some "aa:bb", type := some "usw",
    ip := some "10.0.0.1", model := none, version := none, state := none }

/-- A device with an unrecognized type code sharing identifier `host1`. -/
def devOther : DeviceRecord :=
  { name := some "host1", mac := some "aa", type := some "other",
    ip := none, model := none, version := none, state := none }

/-- A switch named `host1`. -/
def devHost1 : DeviceRecord :=
  { name := some "host1", mac := some "aa", type := some "usw",
    ip := none, model := none, version := none, state := none }

/-- A wireless client with hostname `host1`. -/
def cliHost1 : ClientRecord :=
  { hostname := some "host1", mac := some "bb", is_wired := some false,
    ip := none, last_seen := none }

/-- An access point whose `name` key is absent. -/
def devNoName : DeviceRecord :=
  { name := none, mac := some "dd:ee", type := some "uap",
    ip := none, model := none, version := none, state := none }

/-- The spec's example client with a null hostname. -/
def cliNoHost : ClientRecord :=
  { hostname := none, mac := some "cc:dd", is_wired := some false,
    ip := none, last_seen := none }

/-- A switch with both identifier fields absent. -/
def devBare : DeviceRecord :=
  { name := none, mac := none, type := some "usw",
    ip := none, model := none, version := none, state := none }

/-- A client with every key absent. -/
def cliBare : ClientRecord :=
  { hostname := none, mac := none, is_wired := none,
    ip := none, last_seen := none }

/-! ## Association-list dictionary lemmas -/

theorem mem_keys_dictInsert_self (k : Option String) (v : HostEntry) (d : HostVars) :
    k ∈ (dictInsert k v d).map Prod.fst := by
  unfold dictInsert
  split
  · rename_i h
    rcases List.any_eq_true.mp h with ⟨p, hp, hpk⟩
    refine List.mem_map.mpr ⟨(k, v), List.mem_map.mpr ⟨p, hp, ?_⟩, rfl⟩
    simp [hpk]
  · simp

theorem mem_keys_dictInsert_mono (k : Option String) (v : HostEntry) (d : HostVars)
    (k1 : Option String) (h : k1 ∈ d.map Prod.fst) :
    k1 ∈ (dictInsert k v d).map Prod.fst := by
  rcases List.mem_map.mp h with ⟨p, hp, hpk⟩
  by_cases hk : (p.1 == k) = true
  · have hk1 : k1 = k := by rw [← hpk]; exact eq_of_beq hk
    rw [hk1]
    exact mem_keys_dictInsert_self k v d
  · unfold dictInsert
    split
    · refine List.mem_map.mpr ⟨p, List.mem_map.mpr ⟨p, hp, ?_⟩, hpk⟩
      simp [hk]
    · rw [List.map_append]
      exact List.mem_append.mpr (Or.inl (List.mem_map.mpr ⟨p, hp, hpk⟩))

theorem mem_dictInsert (k : Option String) (v : HostEntry) (d : HostVars)
    (k1 : Option String) (v1 : HostEntry) (h : (k1, v1) ∈ dictInsert k v d) :
    v1 = v ∨ (k1, v1) ∈ d := by
  unfold dictInsert at h
  split at h
  · rcases List.mem_map.mp h with ⟨p, hp, hpe⟩
    by_cases hk : (p.1 == k) = true
    · rw [if_pos hk] at hpe
      left
      exact (Prod.mk.injEq _ _ _ _ ▸ hpe).2.symm
    · rw [if_neg hk] at hpe
      right
      exact hpe ▸ hp
  · rcases List.mem_append.mp h with h1 | h1
    · exact Or.inr h1
    · left
      simp at h1
      exact h1.2

theorem dictGet_dictInsert_self (k : Option String) (v : HostEntry) (d : HostVars) :
    dictGet (dictInsert k v d) k = some v := by
  unfold dictGet dictInsert
  by_cases h : d.any (fun p => p.1 == k) = true
  · rw [if_pos h, List.find?_map]
    have hpred : ((fun q : Option String × HostEntry => q.1 == k) ∘
        (fun p : Option String × HostEntry => if p.1 == k then (k, v) else p)) =
        (fun p : Option String × HostEntry => p.1 == k) := by
      funext p
      simp only [Function.comp_apply]
      by_cases hp : (p.1 == k) = true
      · rw [if_pos hp, hp]
        simp
      · rw [if_neg hp]
    rw [hpred]
    rcases List.any_eq_true.mp h with ⟨p, hp, hpk⟩
    have hsome : (d.find? (fun p => p.1 == k)).isSome := by
      rw [List.find?_isSome]
      exact ⟨p, hp, hpk⟩
    obtain ⟨q, hq⟩ := Option.isSome_iff_exists.mp hsome
    have hqk := List.find?_some hq
    rw [hq]
    simp [eq_of_beq hqk]
  · rw [if_neg h, List.find?_append]
    have h0 : d.find? (fun p => p.1 == k) = none := by
      rw [List.find?_eq_none]
      intro x hx hxk
      exact h (List.any_eq_true.mpr ⟨x, hx, hxk⟩)
    simp [h0]

theorem foldl_preserve {α β : Type} (P : β → Prop) (f : β → α → β)
    (hf : ∀ b a, P b → P (f b a)) (l : List α) (b : β) (hb : P b) :
    P (l.foldl f b) := by
  induction l generalizing b with
  | nil => exact hb
  | cons a t ih => exact ih (f b a) (hf b a hb)

/-! ## The hosts-lists/hostvars invariant -/

theorem hostsOk_update (inv inv2 : Inventory) (hn : Option String)
    (hkeys : ∀ h, h ∈ hostvarsKeys inv → h ∈ hostvarsKeys inv2)
    (hself : hn ∈ hostvarsKeys inv2)
    (hs : ∀ h, h ∈ inv2.switches_hosts → h ∈ inv.switches_hosts ∨ h = hn)
    (ha : ∀ h, h ∈ inv2.aps_hosts → h ∈ inv.aps_hosts ∨ h = hn)
    (hg : ∀ h, h ∈ inv2.gateways_hosts → h ∈ inv.gateways_hosts ∨ h = hn)
    (hw : ∀ h, h ∈ inv2.wired_clients_hosts → h ∈ inv.wired_clients_hosts ∨ h = hn)
    (hwl : ∀ h, h ∈ inv2.wireless_clients_hosts → h ∈ inv.wireless_clients_hosts ∨ h = hn)
    (hI : hostsOk inv) : hostsOk inv2 := by
  intro h hmem
  have resolve : (h ∈ inv.switches_hosts ∨ h ∈ inv.aps_hosts ∨ h ∈ inv.gateways_hosts ∨
      h ∈ inv.wired_clients_hosts ∨ h ∈ inv.wireless_clients_hosts) ∨ h = hn := by
    rcases hmem with h1 | h1 | h1 | h1 | h1
    · rcases hs h h1 with h2 | h2
      · exact Or.inl (Or.inl h2)
      · exact Or.inr h2
    · rcases ha h h1 with h2 | h2
      · exact Or.inl (Or.inr (Or.inl h2))
      · exact Or.inr h2
    · rcases hg h h1 with h2 | h2
      · exact Or.inl (Or.inr (Or.inr (Or.inl h2)))
      · exact Or.inr h2
    · rcases hw h h1 with h2 | h2
      · exact Or.inl (Or.inr (Or.inr (Or.inr (Or.inl h2))))
      · exact Or.inr h2
    · rcases hwl h h1 with h2 | h2
      · exact Or.inl (Or.inr (Or.inr (Or.inr (Or.inr h2))))
      · exact Or.inr h2
  rcases resolve with h1 | h1
  · exact hkeys h (hI h h1)
  · rw [h1]
    exact hself

theorem hostsOk_processDevice (inv : Inventory) (d : DeviceRecord) (hI : hostsOk inv) :
    hostsOk (processDevice inv d) := by
  simp only [processDevice]
  have key1 := mem_keys_dictInsert_self (pyOr d.name d.mac) (deviceEntry d) inv.hostvars
  have key2 := mem_keys_dictInsert_mono (pyOr d.name d.mac) (deviceEntry d) inv.hostvars
  split
  · refine hostsOk_update inv _ (pyOr d.name d.mac) key2 key1 ?_ ?_ ?_ ?_ ?_ hI
    · intro h h1
      simpa using List.mem_append.mp h1
    all_goals exact fun h h1 => Or.inl h1
  · split
    · refine hostsOk_update inv _ (pyOr d.name d.mac) key2 key1 ?_ ?_ ?_ ?_ ?_ hI
      · exact fun h h1 => Or.inl h1
      · intro h h1
        simpa using List.mem_append.mp h1
      all_goals exact fun h h1 => Or.inl h1
    · split
      · refine hostsOk_update inv _ (pyOr d.name d.mac) key2 key1 ?_ ?_ ?_ ?_ ?_ hI
        · exact fun h h1 => Or.inl h1
        · exact fun h h1 => Or.inl h1
        · intro h h1
          simpa using List.mem_append.mp h1
        all_goals exact fun h h1 => Or.inl h1
      · exact hostsOk_update inv _ (pyOr d.name d.mac) key2 key1
          (fun h h1 => Or.inl h1) (fun h h1 => Or.inl h1) (fun h h1 => Or.inl h1)
          (fun h h1 => Or.inl h1) (fun h h1 => Or.inl h1) hI

theorem hostsOk_processClient (inv : Inventory) (c : ClientRecord) (hI : hostsOk inv) :
    hostsOk (processClient inv c) := by
  simp only [processClient]
  have key1 := mem_keys_dictInsert_self (pyOr c.hostname c.mac) (clientEntry c) inv.hostvars
  have key2 := mem_keys_dictInsert_mono (pyOr c.hostname c.mac) (clientEntry c) inv.hostvars
  split
  · refine hostsOk_update inv _ (pyOr c.hostname c.mac) key2 key1 ?_ ?_ ?_ ?_ ?_ hI
    · exact fun h h1 => Or.inl h1
    · exact fun h h1 => Or.inl h1
    · exact fun h h1 => Or.inl h1
    · intro h h1
      simpa using List.mem_append.mp h1
    · exact fun h h1 => Or.inl h1
  · refine hostsOk_update inv _ (pyOr c.hostname c.mac) key2 key1 ?_ ?_ ?_ ?_ ?_ hI
    · exact fun h h1 => Or.inl h1
    · exact fun h h1 => Or.inl h1
    · exact fun h h1 => Or.inl h1
    · exact fun h h1 => Or.inl h1
    · intro h h1
      simpa using List.mem_append.mp h1

theorem hostsOk_buildInventory (ds : List DeviceRecord) (cs : List ClientRecord) :
    hostsOk (buildInventory ds cs) := by
  unfold buildInventory
  refine foldl_preserve hostsOk processClient hostsOk_processClient cs _ ?_
  refine foldl_preserve hostsOk processDevice hostsOk_processDevice ds _ ?_
  intro h hmem
  simp [skeleton] at hmem

/-! ## Rewrite lemmas for the loop bodies -/

theorem processDevice_hostvars (inv : Inventory) (d : DeviceRecord) :
    (processDevice inv d).hostvars =
      dictInsert (deviceHostId d) (deviceEntry d) inv.hostvars := by
  simp only [processDevice, deviceHostId]
  split
  · rfl
  · split
    · rfl
    · split <;> rfl

theorem processClient_hostvars (inv : Inventory) (c : ClientRecord) :
    (processClient inv c).hostvars =
      dictInsert (clientHostId c) (clientEntry c) inv.hostvars := by
  simp only [processClient, clientHostId]
  split <;> rfl

theorem processDevice_usw (inv : Inventory) (d : DeviceRecord)
    (h : deviceType d = "usw") :
    processDevice inv d =
      { inv with
        hostvars := dictInsert (deviceHostId d) (deviceEntry d) inv.hostvars,
        switches_hosts := inv.switches_hosts ++ [deviceHostId d] } := by
  simp only [processDevice, deviceHostId]
  rw [if_pos h]

theorem processDevice_uap (inv : Inventory) (d : DeviceRecord)
    (h1 : deviceType d ≠ "usw") (h : deviceType d = "uap") :
    processDevice inv d =
      { inv with
        hostvars := dictInsert (deviceHostId d) (deviceEntry d) inv.hostvars,
        aps_hosts := inv.aps_hosts ++ [deviceHostId d] } := by
  simp only [processDevice, deviceHostId]
  rw [if_neg h1, if_pos h]

theorem processDevice_ugw (inv : Inventory) (d : DeviceRecord)
    (h1 : deviceType d ≠ "usw") (h2 : deviceType d ≠ "uap")
    (h : deviceType d = "ugw") :
    processDevice inv d =
      { inv with
        hostvars := dictInsert (deviceHostId d) (deviceEntry d) inv.hostvars,
        gateways_hosts := inv.gateways_hosts ++ [deviceHostId d] } := by
  simp only [processDevice, deviceHostId]
  rw [if_neg h1, if_neg h2, if_pos h]

theorem processDevice_unrecognized (inv : Inventory) (d : DeviceRecord)
    (h1 : deviceType d ≠ "usw") (h2 : deviceType d ≠ "uap")
    (h3 : deviceType d ≠ "ugw") :
    processDevice inv d =
      { inv with
        hostvars := dictInsert (deviceHostId d) (deviceEntry d) inv.hostvars } := by
  simp only [processDevice, deviceHostId]
  rw [if_neg h1, if_neg h2, if_neg h3]

theorem processClient_wired (inv : Inventory) (c : ClientRecord)
    (h : c.is_wired.getD false = true) :
    processClient inv c =
      { inv with
        hostvars := dictInsert (clientHostId c) (clientEntry c) inv.hostvars,
        wired_clients_hosts := inv.wired_clients_hosts ++ [clientHostId c] } := by
  simp only [processClient, clientHostId]
  rw [if_pos h]

theorem processClient_wireless (inv : Inventory) (c : ClientRecord)
    (h : c.is_wired.getD false = false) :
    processClient inv c =
      { inv with
        hostvars := dictInsert (clientHostId c) (clientEntry c) inv.hostvars,
        wireless_clients_hosts := inv.wireless_clients_hosts ++ [clientHostId c] } := by
  simp only [processClient, clientHostId]
  rw [if_neg (by simp [h])]

theorem processDevice_client_lists (inv : Inventory) (d : DeviceRecord) :
    (processDevice inv d).wired_clients_hosts = inv.wired_clients_hosts ∧
    (processDevice inv d).wireless_clients_hosts = inv.wireless_clients_hosts := by
  simp only [processDevice]
  split
  · exact ⟨rfl, rfl⟩
  · split
    · exact ⟨rfl, rfl⟩
    · split <;> exact ⟨rfl, rfl⟩

theorem processClient_device_lists (inv : Inventory) (c : ClientRecord) :
    (processClient inv c).switches_hosts = inv.switches_hosts ∧
    (processClient inv c).aps_hosts = inv.aps_hosts ∧
    (processClient inv c).gateways_hosts = inv.gateways_hosts := by
  simp only [processClient]
  split <;> exact ⟨rfl, rfl, rfl⟩

theorem foldl_processClient_device_lists (cs : List ClientRecord) (inv : Inventory) :
    (cs.foldl processClient inv).switches_hosts = inv.switches_hosts ∧
    (cs.foldl processClient inv).aps_hosts = inv.aps_hosts ∧
    (cs.foldl processClient inv).gateways_hosts = inv.gateways_hosts := by
  induction cs generalizing inv with
  | nil => exact ⟨rfl, rfl, rfl⟩
  | cons c t ih =>
    have hstep := processClient_device_lists inv c
    have htail := ih (processClient inv c)
    exact ⟨htail.1.trans hstep.1, htail.2.1.trans hstep.2.1, htail.2.2.trans hstep.2.2⟩

theorem processClient_keys_mono (inv : Inventory) (c : ClientRecord)
    (k : Option String) (h : k ∈ hostvarsKeys inv) :
    k ∈ hostvarsKeys (processClient inv c) := by
  unfold hostvarsKeys at h ⊢
  rw [processClient_hostvars]
  exact mem_keys_dictInsert_mono _ _ _ _ h

theorem foldl_processClient_keys_mono (cs : List ClientRecord) (inv : Inventory)
    (k : Option String) (h : k ∈ hostvarsKeys inv) :
    k ∈ hostvarsKeys (cs.foldl processClient inv) :=
  foldl_preserve (fun inv2 => k ∈ hostvarsKeys inv2) processClient
    (fun b a hb => processClient_keys_mono b a k hb) cs inv h

theorem processDevice_key_self (inv : Inventory) (d : DeviceRecord) :
    deviceHostId d ∈ hostvarsKeys (processDevice inv d) := by
  unfold hostvarsKeys
  rw [processDevice_hostvars]
  exact mem_keys_dictInsert_self _ _ _

theorem processClient_key_self (inv : Inventory) (c : ClientRecord) :
    clientHostId c ∈ hostvarsKeys (processClient inv c) := by
  unfold hostvarsKeys
  rw [processClient_hostvars]
  exact mem_keys_dictInsert_self _ _ _

/-! ## Claim theorems -/

/-- C1: for every sequence of device records and every sequence of client
records, every host identifier appearing in the hosts list of any group of
the document returned by build_inventory also appears as a key in the
document's `_meta.hostvars` mapping. -/
theorem C1_hosts_subset_hostvars (ds : List DeviceRecord) (cs : List ClientRecord)
    (g : String) (hs : List (Option String)) (h : Option String)
    (hg : (g, GroupVal.hosts hs) ∈ (buildInventory ds cs).toAssoc) (hh : h ∈ hs) :
    h ∈ hostvarsKeys (buildInventory ds cs) := by
  have hOk := hostsOk_buildInventory ds cs
  simp only [Inventory.toAssoc, List.mem_cons, List.not_mem_nil, or_false,
    Prod.mk.injEq] at hg
  rcases hg with ⟨_, hg⟩ | ⟨_, hg⟩ | ⟨_, hg⟩ | ⟨_, hg⟩ | ⟨_, hg⟩ | ⟨_, hg⟩ | ⟨_, hg⟩ |
    ⟨_, hg⟩ | ⟨_, hg⟩
  · exact absurd hg (by simp)
  · exact absurd hg (by simp)
  · exact absurd hg (by simp)
  · rw [GroupVal.hosts.injEq] at hg
    exact hOk h (Or.inl (hg ▸ hh))
  · rw [GroupVal.hosts.injEq] at hg
    exact hOk h (Or.inr (Or.inl (hg ▸ hh)))
  · rw [GroupVal.hosts.injEq] at hg
    exact hOk h (Or.inr (Or.inr (Or.inl (hg ▸ hh))))
  · exact absurd hg (by simp)
  · rw [GroupVal.hosts.injEq] at hg
    exact hOk h (Or.inr (Or.inr (Or.inr (Or.inl (hg ▸ hh)))))
  · rw [GroupVal.hosts.injEq] at hg
    exact hOk h (Or.inr (Or.inr (Or.inr (Or.inr (hg ▸ hh)))))

theorem C1_hosts_subset_hostvars_witness :
    ("switches", GroupVal.hosts [some "sw1"]) ∈ (buildInventory [devUsw] []).toAssoc ∧
    some "sw1" ∈ [(some "sw1" : Option String)] ∧
    some "sw1" ∈ hostvarsKeys (buildInventory [devUsw] []) :=
  ⟨by decide, by decide,
   C1_hosts_subset_hostvars [devUsw] [] "switches" [some "sw1"] (some "sw1")
     (by decide) (by decide)⟩

/-- C6: building from an empty device list and an empty client list yields
every group hosts list empty and `_meta.hostvars` empty, with all nine fixed
top-level group keys still present. -/
theorem C6_empty_inventory :
    buildInventory [] [] = skeleton ∧
    (buildInventory [] []).hostvars = [] ∧
    (buildInventory [] []).switches_hosts = [] ∧
    (buildInventory [] []).aps_hosts = [] ∧
    (buildInventory [] []).gateways_hosts = [] ∧
    (buildInventory [] []).wired_clients_hosts = [] ∧
    (buildInventory [] []).wireless_clients_hosts = [] ∧
    (buildInventory [] []).toAssoc.map Prod.fst =
      ["_meta", "all", "unifi_devices", "switches", "aps", "gateways",
       "unifi_clients", "wired_clients", "wireless_clients"] :=
  ⟨rfl, rfl, rfl, rfl, rfl, rfl, rfl, rfl⟩

/-- C8: no deduplication of host identifiers within a hosts list: two device
records with the same identifier and the same recognized type code put the
identifier twice into the sub-group's hosts list, and likewise for clients. -/
theorem C8_no_dedup :
    (buildInventory [devHost1, devHost1] [cliHost1, cliHost1]).switches_hosts =
      [some "host1", some "host1"] ∧
    (buildInventory [devHost1, devHost1] [cliHost1, cliHost1]).wireless_clients_hosts =
      [some "host1", some "host1"] := by
  constructor <;> rfl

/-- C3: a device record whose type is none of the exact codes usw, uap, ugw
gets its host identifier recorded as a hostvars key but into none of the
switches, aps, gateways hosts lists. -/
theorem C3_unrecognized_type (d : DeviceRecord) (cs : List ClientRecord)
    (h1 : deviceType d ≠ "usw") (h2 : deviceType d ≠ "uap")
    (h3 : deviceType d ≠ "ugw") :
    deviceHostId d ∈ hostvarsKeys (buildInventory [d] cs) ∧
    deviceHostId d ∉ (buildInventory [d] cs).switches_hosts ∧
    deviceHostId d ∉ (buildInventory [d] cs).aps_hosts ∧
    deviceHostId d ∉ (buildInventory [d] cs).gateways_hosts := by
  have hb : buildInventory [d] cs = cs.foldl processClient (processDevice skeleton d) := by
    simp [buildInventory]
  have hlists := foldl_processClient_device_lists cs (processDevice skeleton d)
  have hdev := processDevice_unrecognized skeleton d h1 h2 h3
  refine ⟨?_, ?_, ?_, ?_⟩
  · rw [hb]
    exact foldl_processClient_keys_mono cs _ _ (processDevice_key_self skeleton d)
  · rw [hb, hlists.1, hdev]
    simp [skeleton]
  · rw [hb, hlists.2.1, hdev]
    simp [skeleton]
  · rw [hb, hlists.2.2, hdev]
    simp [skeleton]

theorem C3_unrecognized_type_witness :
    (deviceType devOther ≠ "usw" ∧ deviceType devOther ≠ "uap" ∧
      deviceType devOther ≠ "ugw") ∧
    (deviceHostId devOther ∈ hostvarsKeys (buildInventory [devOther] []) ∧
     deviceHostId devOther ∉ (buildInventory [devOther] []).switches_hosts ∧
     deviceHostId devOther ∉ (buildInventory [devOther] []).aps_hosts ∧
     deviceHostId devOther ∉ (buildInventory [devOther] []).gateways_hosts) :=
  ⟨⟨by decide, by decide, by decide⟩,
   C3_unrecognized_type devOther [] (by decide) (by decide) (by decide)⟩

/-- C4: a device record missing `name` gets its MAC as host identifier, a
client record missing `hostname` gets its MAC; with both fields absent the
identifier is None and is still used as a hostvars key and appended to the
relevant hosts list. -/
theorem C4_identifier_fallback :
    (∀ d : DeviceRecord, d.name = none → deviceHostId d = d.mac) ∧
    (∀ c : ClientRecord, c.hostname = none → clientHostId c = c.mac) ∧
    (∀ d : DeviceRecord, d.name = none → d.mac = none →
      deviceHostId d = none ∧
      none ∈ hostvarsKeys (buildInventory [d] []) ∧
      (deviceType d = "usw" → none ∈ (buildInventory [d] []).switches_hosts)) ∧
    (∀ c : ClientRecord, c.hostname = none → c.mac = none →
      clientHostId c = none ∧
      none ∈ hostvarsKeys (buildInventory [] [c]) ∧
      none ∈ (if c.is_wired.getD false then (buildInventory [] [c]).wired_clients_hosts
        else (buildInventory [] [c]).wireless_clients_hosts)) := by
  refine ⟨?_, ?_, ?_, ?_⟩
  · intro d hd
    simp [deviceHostId, pyOr, pyTruthy, hd]
  · intro c hc
    simp [clientHostId, pyOr, pyTruthy, hc]
  · intro d h1 h2
    have hid : deviceHostId d = none := by
      simp [deviceHostId, pyOr, pyTruthy, h1, h2]
    have hb : buildInventory [d] [] = processDevice skeleton d := by
      simp [buildInventory]
    refine ⟨hid, ?_, ?_⟩
    · rw [hb]
      exact hid ▸ processDevice_key_self skeleton d
    · intro ht
      rw [hb, processDevice_usw skeleton d ht]
      simp [skeleton, hid]
  · intro c h1 h2
    have hid : clientHostId c = none := by
      simp [clientHostId, pyOr, pyTruthy, h1, h2]
    have hb : buildInventory [] [c] = processClient skeleton c := by
      simp [buildInventory]
    refine ⟨hid, ?_, ?_⟩
    · rw [hb]
      exact hid ▸ processClient_key_self skeleton c
    · by_cases hw : c.is_wired.getD false = true
      · rw [if_pos hw, hb, processClient_wired skeleton c hw]
        simp [skeleton, hid]
      · rw [if_neg hw, hb,
          processClient_wireless skeleton c (Bool.eq_false_iff.mpr hw)]
        simp [skeleton, hid]

theorem C4_identifier_fallback_witness :
    (devNoName.name = none ∧ deviceHostId devNoName = devNoName.mac) ∧
    (cliNoHost.hostname = none ∧ clientHostId cliNoHost = cliNoHost.mac) ∧
    (clientHostId cliBare = none ∧
     none ∈ hostvarsKeys (buildInventory [] [cliBare]) ∧
     none ∈ (if cliBare.is_wired.getD false then (buildInventory [] [cliBare]).wired_clients_hosts
       else (buildInventory [] [cliBare]).wireless_clients_hosts)) ∧
    (deviceHostId devBare = none ∧
     none ∈ hostvarsKeys (buildInventory [devBare] [])) :=
  ⟨⟨rfl, C4_identifier_fallback.1 devNoName rfl⟩,
   ⟨rfl, C4_identifier_fallback.2.1 cliNoHost rfl⟩,
   C4_identifier_fallback.2.2.2 cliBare rfl rfl,
   ⟨(C4_identifier_fallback.2.2.1 devBare rfl rfl).1,
    (C4_identifier_fallback.2.2.1 devBare rfl rfl).2.1⟩⟩

/-- C7: the hostvars entry written for a device record contains its MAC, IP,
model, version, device type, an adoption state defaulting to 1 when `state`
is absent, and a `unifi_device` marker set true. -/
theorem C7_device_entry_contents (d : DeviceRecord) :
    dictGet (buildInventory [d] []).hostvars (deviceHostId d) = some (deviceEntry d) ∧
    ("mac_address", optStr d.mac) ∈ deviceEntry d ∧
    ("ip_address", optStr d.ip) ∈ deviceEntry d ∧
    ("model", optStr d.model) ∈ deviceEntry d ∧
    ("version", optStr d.version) ∈ deviceEntry d ∧
    ("device_type", PyVal.str (deviceType d)) ∈ deviceEntry d ∧
    ("adoption_state", PyVal.int (d.state.getD 1)) ∈ deviceEntry d ∧
    (d.state = none → ("adoption_state", PyVal.int 1) ∈ deviceEntry d) ∧
    ("unifi_device", PyVal.bool true) ∈ deviceEntry d := by
  have hb : buildInventory [d] [] = processDevice skeleton d := by
    simp [buildInventory]
  refine ⟨?_, ?_, ?_, ?_, ?_, ?_, ?_, ?_, ?_⟩
  · rw [hb, processDevice_hostvars]
    exact dictGet_dictInsert_self _ _ _
  · simp [deviceEntry]
  · simp [deviceEntry]
  · simp [deviceEntry]
  · simp [deviceEntry]
  · simp [deviceEntry]
  · simp [deviceEntry]
  · intro hs
    simp [deviceEntry, hs]
  · simp [deviceEntry]

theorem C7_device_entry_contents_witness :
    dictGet (buildInventory [devUsw] []).hostvars (deviceHostId devUsw) =
      some (deviceEntry devUsw) ∧
    (devUsw.state = none ∧ ("adoption_state", PyVal.int 1) ∈ deviceEntry devUsw) :=
  ⟨(C7_device_entry_contents devUsw).1,
   ⟨rfl, (C7_device_entry_contents devUsw).2.2.2.2.2.2.2.1 rfl⟩⟩

/-- C2 counterexample: a device with unrecognized type `other` and a client
share identifier `host1`; the claim says the identifier appears in exactly
one device sub-group hosts list, but it appears in none of them. -/
theorem C2_counterexample :
    deviceHostId devOther = clientHostId cliHost1 ∧
    ¬ (countHost (clientHostId cliHost1)
         (buildInventory [devOther] [cliHost1]).switches_hosts +
       countHost (clientHostId cliHost1)
         (buildInventory [devOther] [cliHost1]).aps_hosts +
       countHost (clientHostId cliHost1)
         (buildInventory [devOther] [cliHost1]).gateways_hosts = 1) := by
  decide

/-- C2 (amended): one device and one client deriving the same host
identifier: the final hostvars entry for the identifier is exactly the
client's variable mapping, the identifier occurs exactly once across the two
client sub-group hosts lists, and it occurs exactly once across the three
device sub-group hosts lists when the device type is usw, uap or ugw, and
zero times otherwise. -/
theorem C2_collision_client_wins (d : DeviceRecord) (c : ClientRecord)
    (h : deviceHostId d = clientHostId c) :
    dictGet (buildInventory [d] [c]).hostvars (clientHostId c) =
      some (clientEntry c) ∧
    countHost (clientHostId c) (buildInventory [d] [c]).wired_clients_hosts +
      countHost (clientHostId c) (buildInventory [d] [c]).wireless_clients_hosts = 1 ∧
    countHost (clientHostId c) (buildInventory [d] [c]).switches_hosts +
      countHost (clientHostId c) (buildInventory [d] [c]).aps_hosts +
      countHost (clientHostId c) (buildInventory [d] [c]).gateways_hosts =
      (if deviceType d = "usw" ∨ deviceType d = "uap" ∨ deviceType d = "ugw"
        then 1 else 0) := by
  have hb : buildInventory [d] [c] = processClient (processDevice skeleton d) c := by
    simp [buildInventory]
  have hdl := processClient_device_lists (processDevice skeleton d) c
  have hcl := processDevice_client_lists skeleton d
  refine ⟨?_, ?_, ?_⟩
  · rw [hb, processClient_hostvars]
    exact dictGet_dictInsert_self _ _ _
  · by_cases hw : c.is_wired.getD false = true
    · rw [hb, processClient_wired _ c hw]
      simp only [hcl.1, hcl.2]
      simp [skeleton, countHost]
    · rw [hb, processClient_wireless _ c (Bool.eq_false_iff.mpr hw)]
      simp only [hcl.1, hcl.2]
      simp [skeleton, countHost]
  · rw [hb, hdl.1, hdl.2.1, hdl.2.2]
    by_cases husw : deviceType d = "usw"
    · rw [processDevice_usw skeleton d husw]
      simp [skeleton, countHost, h, husw]
    · by_cases huap : deviceType d = "uap"
      · rw [processDevice_uap skeleton d husw huap]
        simp [skeleton, countHost, h, husw, huap]
      · by_cases hugw : deviceType d = "ugw"
        · rw [processDevice_ugw skeleton d husw huap hugw]
          simp [skeleton, countHost, h, husw, huap, hugw]
        · rw [processDevice_unrecognized skeleton d husw huap hugw]
          simp [skeleton, countHost, husw, huap, hugw]

theorem C2_collision_client_wins_witness :
    deviceHostId devHost1 = clientHostId cliHost1 ∧
    (dictGet (buildInventory [devHost1] [cliHost1]).hostvars (clientHostId cliHost1) =
       some (clientEntry cliHost1) ∧
     countHost (clientHostId cliHost1)
         (buildInventory [devHost1] [cliHost1]).wired_clients_hosts +
       countHost (clientHostId cliHost1)
         (buildInventory [devHost1] [cliHost1]).wireless_clients_hosts = 1 ∧
     countHost (clientHostId cliHost1)
         (buildInventory [devHost1] [cliHost1]).switches_hosts +
       countHost (clientHostId cliHost1)
         (buildInventory [devHost1] [cliHost1]).aps_hosts +
       countHost (clientHostId cliHost1)
         (buildInventory [devHost1] [cliHost1]).gateways_hosts =
       (if deviceType devHost1 = "usw" ∨ deviceType devHost1 = "uap" ∨
           deviceType devHost1 = "ugw" then 1 else 0)) :=
  ⟨by decide, C2_collision_client_wins devHost1 cliHost1 (by decide)⟩

/-- C5: a failed device or client fetch (exception or non-200 response)
yields an empty list, and with successful authentication the inventory is
still built and emitted from whatever data succeeded, with no error
indication in the output document. -/
theorem C5_fetch_failure_degrades :
    get_devices HttpResult.exn = [] ∧
    (∀ (s : Nat) (data : Option (List DeviceRecord)), s ≠ 200 →
      get_devices (HttpResult.resp s data) = []) ∧
    get_clients HttpResult.exn = [] ∧
    (∀ (s : Nat) (data : Option (List ClientRecord)), s ≠ 200 →
      get_clients (HttpResult.resp s data) = []) ∧
    (∀ (a : AuthAttempt) (dr : HttpResult (List DeviceRecord))
        (cr : HttpResult (List ClientRecord)), authenticate a = true →
      run a dr cr = Except.ok (buildInventory (get_devices dr) (get_clients cr))) := by
  refine ⟨rfl, ?_, rfl, ?_, ?_⟩
  · intro s data hs
    simp [get_devices, hs]
  · intro s data hs
    simp [get_clients, hs]
  · intro a dr cr ha
    simp [run, ha]

theorem C5_fetch_failure_degrades_witness :
    ((500 : Nat) ≠ 200 ∧ get_devices (HttpResult.resp 500 (some [devUsw])) = []) ∧
    (authenticate (AuthAttempt.resp 200) = true ∧
     run (AuthAttempt.resp 200) HttpResult.exn (HttpResult.resp 200 (some [cliNoHost])) =
       Except.ok (buildInventory (get_devices HttpResult.exn)
         (get_clients (HttpResult.resp 200 (some [cliNoHost]))))) :=
  ⟨⟨by decide, C5_fetch_failure_degrades.2.1 500 (some [devUsw]) (by decide)⟩,
   ⟨rfl, C5_fetch_failure_degrades.2.2.2.2 (AuthAttempt.resp 200) HttpResult.exn
     (HttpResult.resp 200 (some [cliNoHost])) rfl⟩⟩

/-- C9: authentication failure (non-200 response or an exception during
credential decoding or the request) makes the process exit non-zero with a
diagnostic, and no inventory document is printed to standard output. -/
theorem C9_auth_failure_no_output :
    authenticate AuthAttempt.exn = false ∧
    (∀ s : Nat, s ≠ 200 → authenticate (AuthAttempt.resp s) = false) ∧
    (∀ (a : AuthAttempt) (dr : HttpResult (List DeviceRecord))
        (cr : HttpResult (List ClientRecord)), authenticate a = false →
      run a dr cr = Except.error "Authentication failed" ∧
      ∀ inv : Inventory, run a dr cr ≠ Except.ok inv) := by
  refine ⟨rfl, ?_, ?_⟩
  · intro s hs
    simp [authenticate, hs]
  · intro a dr cr ha
    constructor
    · simp [run, ha]
    · intro inv
      simp [run, ha]

theorem C9_auth_failure_no_output_witness :
    ((401 : Nat) ≠ 200 ∧ authenticate (AuthAttempt.resp 401) = false) ∧
    run (AuthAttempt.resp 401) (HttpResult.resp 200 (some [devUsw]))
      (HttpResult.resp 200 (some [cliNoHost])) = Except.error "Authentication failed" :=
  ⟨⟨by decide, C9_auth_failure_no_output.2.1 401 (by decide)⟩,
   (C9_auth_failure_no_output.2.2 (AuthAttempt.resp 401)
     (HttpResult.resp 200 (some [devUsw]))
     (HttpResult.resp 200 (some [cliNoHost])) rfl).1⟩

theorem deviceEntry_shape (d : DeviceRecord) :
    isDeviceVars (deviceEntry d) ∧ hasKey "unifi_client" (deviceEntry d) = false := by
  refine ⟨⟨rfl, ?_⟩, rfl⟩
  simp [deviceEntry]

theorem clientEntry_shape (c : ClientRecord) :
    isClientVars (clientEntry c) ∧ hasKey "unifi_device" (clientEntry c) = false := by
  refine ⟨⟨rfl, ?_⟩, rfl⟩
  simp [clientEntry]

theorem entriesOk_processDevice (inv : Inventory) (d : DeviceRecord)
    (hI : entriesOk inv) : entriesOk (processDevice inv d) := by
  unfold entriesOk at hI ⊢
  intro k v hm
  rw [processDevice_hostvars] at hm
  rcases mem_dictInsert _ _ _ _ _ hm with h1 | h1
  · subst h1
    exact Or.inl (deviceEntry_shape d)
  · exact hI k v h1

theorem entriesOk_processClient (inv : Inventory) (c : ClientRecord)
    (hI : entriesOk inv) : entriesOk (processClient inv c) := by
  unfold entriesOk at hI ⊢
  intro k v hm
  rw [processClient_hostvars] at hm
  rcases mem_dictInsert _ _ _ _ _ hm with h1 | h1
  · subst h1
    exact Or.inr (clientEntry_shape c)
  · exact hI k v h1

theorem entriesOk_buildInventory (ds : List DeviceRecord) (cs : List ClientRecord) :
    entriesOk (buildInventory ds cs) := by
  unfold buildInventory
  refine foldl_preserve entriesOk processClient entriesOk_processClient cs _ ?_
  refine foldl_preserve entriesOk processDevice entriesOk_processDevice ds _ ?_
  intro k v hm
  simp [skeleton] at hm

/-- C10: every value stored in `_meta.hostvars` of the returned document has
exactly one of the two markers: either it is a device entry (the seven
device keys with `unifi_device` true and no `unifi_client` key) or a client
entry (the six client keys with `unifi_client` true and no `unifi_device`
key); no entry mixes device and client variables. -/
theorem C10_entry_exclusive (ds : List DeviceRecord) (cs : List ClientRecord)
    (k : Option String) (v : HostEntry)
    (hm : (k, v) ∈ (buildInventory ds cs).hostvars) :
    (isDeviceVars v ∧ hasKey "unifi_client" v = false) ∨
    (isClientVars v ∧ hasKey "unifi_device" v = false) :=
  entriesOk_buildInventory ds cs k v hm

theorem C10_entry_exclusive_witness :
    ((some "sw1", deviceEntry devUsw) ∈ (buildInventory [devUsw] []).hostvars) ∧
    ((isDeviceVars (deviceEntry devUsw) ∧ hasKey "unifi_client" (deviceEntry devUsw) = false) ∨
     (isClientVars (deviceEntry devUsw) ∧ hasKey "unifi_device" (deviceEntry devUsw) = false)) :=
  ⟨by decide,
   C10_entry_exclusive [devUsw] [] (some "sw1") (deviceEntry devUsw) (by decide)⟩
